import Mathlib

/-!
Verification of the SVDS radar correlation engine and telemetry dispatcher.

This file shallowly embeds the relevant parts of
`basic_pipelines/radar_handler.py` and `basic_pipelines/kafka_handler.py`:
Python dicts become partial maps `Nat → Option α` (a lookup miss models a
`KeyError`), `collections.deque` becomes `List` (front of the list is the
left end of the deque), timestamps and speeds are modelled as `Int`, and
nondeterministic I/O outcomes (serial reads, S3/Kafka attempt results) are
resolved by explicit oracle parameters.  Fallible code returns `Except Unit`.
-/

namespace SVDS

/-- Entry of a rank bucket: `(timestamp, speed)`, as the Python code stores
`(current_time, speed)` tuples in the rank deques. -/
abbrev Entry := Int × Int

/-- Pointwise update of a partial map, modelling `d[k] = v` on a Python dict. -/
def updMap {α : Type} (f : Nat → Option α) (k : Nat) (v : α) : Nat → Option α :=
  fun k' => if k' = k then some v else f k'

/-- Python `min(b :: l, key=key)`: fold keeping the current best, replacing it
only on a strictly smaller key, so ties keep the earliest element. -/
def pyMin (key : Entry → Int) : Entry → List Entry → Entry
  | b, [] => b
  | b, x :: xs => pyMin key (if key x < key b then x else b) xs

/-- Direction reported by the radar serial decoder. -/
inductive Direction where
  | approaching
  | receding
  deriving DecidableEq, Repr

/-- Target type reported by the radar serial decoder. -/
inductive TargetType where
  | primary
  | leading
  deriving DecidableEq, Repr

/-- Decoded speed reading (`_process_speed_data` returns a dict with keys
`speed`, `direction`, `type`). -/
structure SpeedReading where
  speed : Nat
  direction : Direction
  targetType : TargetType
  deriving DecidableEq, Repr

/-- Embedding of `RadarHandler._process_speed_data`: slide a window of four
bytes over the data (`for i in range(len(data) - 3)`).  At each position the
primary-target pattern `0xFC 0xFA speed 0x00` is checked first; if its marker
matches but the magnitude is outside `[0x0F, 0xFA]` the loop just moves on.
Otherwise the leading-target pattern `0xFB 0xFD speed 0x00` with magnitude in
`[0x00, 0xFA]` is checked.  No position matching yields `none`. -/
def process_speed_data : List Nat → Option SpeedReading
  | b0 :: b1 :: b2 :: b3 :: rest =>
    if b0 = 0xFC ∧ b1 = 0xFA ∧ b3 = 0x00 then
      if 0x0F ≤ b2 ∧ b2 ≤ 0xFA then
        some ⟨b2, Direction.approaching, TargetType.primary⟩
      else
        process_speed_data (b1 :: b2 :: b3 :: rest)
    else if b0 = 0xFB ∧ b1 = 0xFD ∧ b3 = 0x00 then
      if b2 ≤ 0xFA then
        some ⟨b2, Direction.receding, TargetType.leading⟩
      else
        process_speed_data (b1 :: b2 :: b3 :: rest)
    else
      process_speed_data (b1 :: b2 :: b3 :: rest)
  | _ => none

/-- Shared state of `RadarHandler` that the matching and ingestion code
manipulates: the three rank deques, the per-class calibration dicts and the
`calibration_required` threshold fixed by `init_radar`. -/
structure RadarState where
  rank1 : List Entry
  rank2 : List Entry
  rank3 : List Entry
  is_calibrating : Nat → Option Bool
  class_calibration_count : Nat → Option Nat
  calibration_required : Nat

/-- Embedding of `RadarHandler.stop_calbirating` (sic):
`self.is_calibrating[obj_class] = False`. -/
def stop_calbirating (st : RadarState) (obj_class : Nat) : RadarState :=
  { st with is_calibrating := updMap st.is_calibrating obj_class false }

/-- Embedding of `RadarHandler._handle_calibration_mode`.  Filter rank-1 down
to the entries strictly above `min_speed`; if none remain return `none`.
Otherwise take the entry minimising `|speed - ai_speed|`; bump the class
calibration counter while it is `≤ calibration_required`, else switch the
class out of calibration; finally remove the chosen entry from rank-1 and
return its speed.  A missing `class_calibration_count` key is a `KeyError`. -/
def handle_calibration_mode (st : RadarState) (ai_speed : Int) (obj_class : Nat)
    (min_speed : Int) : Except Unit (Option Int × RadarState) :=
  match st.rank1.filter (fun e => min_speed < e.2) with
  | [] => Except.ok (none, st)
  | v :: vs =>
    let best := pyMin (fun e => |e.2 - ai_speed|) v vs
    match st.class_calibration_count obj_class with
    | none => Except.error ()
    | some c =>
      let st' :=
        if c ≤ st.calibration_required then
          { st with class_calibration_count :=
              updMap st.class_calibration_count obj_class (c + 1) }
        else
          stop_calbirating st obj_class
      Except.ok (some best.2, { st' with rank1 := st'.rank1.erase best })

/-- Embedding of `RadarHandler._get_best_match_from_ranks`: walk rank-1,
rank-2, rank-3 in that order; in the first bucket whose filtered entries
(speed strictly above `min_speed`) are non-empty, pick the entry with the
minimal timestamp, remove it from that bucket and return its speed. -/
def get_best_match_from_ranks (st : RadarState) (min_speed : Int) :
    Option Int × RadarState :=
  match st.rank1.filter (fun e => min_speed < e.2) with
  | v :: vs =>
    let best := pyMin (fun e => e.1) v vs
    (some best.2, { st with rank1 := st.rank1.erase best })
  | [] =>
    match st.rank2.filter (fun e => min_speed < e.2) with
    | v :: vs =>
      let best := pyMin (fun e => e.1) v vs
      (some best.2, { st with rank2 := st.rank2.erase best })
    | [] =>
      match st.rank3.filter (fun e => min_speed < e.2) with
      | v :: vs =>
        let best := pyMin (fun e => e.1) v vs
        (some best.2, { st with rank3 := st.rank3.erase best })
      | [] => (none, st)

/-- Embedding of `RadarHandler.get_radar_data`.  Early exit with `none` when
all three rank deques are empty; otherwise compute `min_speed = threshold - 5`
and dispatch on `self.is_calibrating[obj_class]` — a missing key is a
`KeyError`, raised only after the early exit. -/
def get_radar_data (st : RadarState) (ai_speed threshold : Int) (obj_class : Nat) :
    Except Unit (Option Int × RadarState) :=
  if st.rank1 = [] ∧ st.rank2 = [] ∧ st.rank3 = [] then
    Except.ok (none, st)
  else
    let min_speed := threshold - 5
    match st.is_calibrating obj_class with
    | none => Except.error ()
    | some true => handle_calibration_mode st ai_speed obj_class min_speed
    | some false => Except.ok (get_best_match_from_ranks st min_speed)

/-- Embedding of `RadarHandler._cleanup_old_speeds`: pop entries from the left
end of the deque while the front entry's age `current_time - ts` is at least
`max_age`. -/
def cleanup_old_speeds (max_age current_time : Int) : List Entry → List Entry
  | [] => []
  | e :: es =>
    if max_age ≤ current_time - e.1 then cleanup_old_speeds max_age current_time es
    else e :: es

/-- Embedding of `RadarHandler._add_speed_to_rank`: prune the deque with
`_cleanup_old_speeds`, then append `(current_time, speed)` on the right. -/
def add_speed_to_rank (max_age : Int) (speed : Int) (rank : List Entry)
    (current_time : Int) : List Entry :=
  cleanup_old_speeds max_age current_time rank ++ [(current_time, speed)]

/-- Embedding of `RadarHandler._process_rank2_to_rank3`: when rank-2 holds at
least two entries, move its oldest (leftmost) entry to the right end of
rank-3, then pop rank-3's leftmost entry if rank-3 now holds more than one. -/
def process_rank2_to_rank3 (rank2 rank3 : List Entry) : List Entry × List Entry :=
  if 2 ≤ rank2.length then
    match rank2 with
    | [] => (rank2, rank3)
    | oldest :: rest =>
      let rank3' := rank3 ++ [oldest]
      (rest, if 1 < rank3'.length then rank3'.tail else rank3')
  else (rank2, rank3)

/-- Iterated matching: run `get_radar_data` the given number of times, feeding
each resulting state into the next call (the returned speeds are discarded);
a raised `KeyError` aborts the sequence. -/
def iter_match (ai_speed threshold : Int) (obj_class : Nat) :
    Nat → RadarState → Except Unit RadarState
  | 0, st => Except.ok st
  | n + 1, st =>
    match get_radar_data st ai_speed threshold obj_class with
    | Except.error e => Except.error e
    | Except.ok (_, st') => iter_match ai_speed threshold obj_class n st'

/-- Concrete engine state for exercising calibration mode: class 0 is
registered as calibrating with zero matches done and
`calibration_required = 1`; rank-1 holds two fresh eligible entries. -/
def calib_demo_state : RadarState where
  rank1 := [(0, 50), (1, 60)]
  rank2 := []
  rank3 := []
  is_calibrating := updMap (fun _ => none) 0 true
  class_calibration_count := updMap (fun _ => none) 0 0
  calibration_required := 1

/-- Variant of `calib_demo_state` with three eligible rank-1 entries, enough
to run the full calibration progression for `calibration_required = 1`. -/
def calib_demo3_state : RadarState where
  rank1 := [(0, 50), (1, 60), (2, 70)]
  rank2 := []
  rank3 := []
  is_calibrating := updMap (fun _ => none) 0 true
  class_calibration_count := updMap (fun _ => none) 0 0
  calibration_required := 1

/-- Concrete engine state for the rank-1 staleness scenario: the single
rank-1 entry was inserted by `add_speed_to_rank` at time 0 with
`max_age = 10`, and class 0 is registered in normal (non-calibration) mode. -/
def stale_demo_state : RadarState where
  rank1 := add_speed_to_rank 10 50 [] 0
  rank2 := []
  rank3 := []
  is_calibrating := updMap (fun _ => none) 0 false
  class_calibration_count := updMap (fun _ => none) 0 0
  calibration_required := 2

/-- Concrete engine state in normal mode: rank-1 holds only an ineligible
entry, rank-2 holds two eligible entries, rank-3 one; class 0 is registered
and not calibrating. -/
def normal_demo_state : RadarState where
  rank1 := [(0, 30)]
  rank2 := [(5, 60), (3, 70)]
  rank3 := [(1, 80)]
  is_calibrating := updMap (fun _ => none) 0 false
  class_calibration_count := updMap (fun _ => none) 0 0
  calibration_required := 2

/-- Concrete engine state with all three rank buckets empty and no class
registered in either calibration dict. -/
def empty_demo_state : RadarState where
  rank1 := []
  rank2 := []
  rank3 := []
  is_calibrating := fun _ => none
  class_calibration_count := fun _ => none
  calibration_required := 2

/-- One S3 backend configuration (the fields of the per-bucket config dict
that `upload_to_s3` reads). -/
structure S3Config where
  bucket_name : String
  region_name : String
  deriving DecidableEq, Repr

/-- Reference returned by a successful upload: images yield the bare object
key, videos yield a fully-qualified URL. -/
inductive S3Ref where
  | objKey (filename : String)
  | fullUrl (url : String)
  deriving DecidableEq, Repr

/-- Environment of `KafkaHandler.upload_to_s3`: the ordered backend configs
(dict insertion order), the health and client dicts, the configured retry
count, and oracles resolving the outcome of each upload attempt.  `now` is
the value `time.time()` returns when a failure time is recorded. -/
structure S3Env where
  s3_configs : List (String × S3Config)
  s3_health : String → Bool
  has_client : String → Bool
  upload_retries : Nat
  attempt_ok : String → Nat → Bool
  last_s3_failure : Int
  now : Int

/-- Unique filename generated by `upload_to_s3`: `clips<uuid>.mp4` for
videos, `<uuid>.jpg` otherwise (the uuid is an oracle parameter). -/
def s3_filename (file_type uuid : String) : String :=
  if file_type = "video" then "clips" ++ uuid ++ ".mp4" else uuid ++ ".jpg"

/-- Reference built on upload success: videos return the full
`https://<bucket>.s3.<region>.amazonaws.com/<key>` URL, images return the
object key. -/
def s3_reference (file_type : String) (cfg : S3Config) (filename : String) :
    S3Ref :=
  if file_type = "video" then
    S3Ref.fullUrl ("https://" ++ cfg.bucket_name ++ ".s3." ++ cfg.region_name ++
      ".amazonaws.com/" ++ filename)
  else S3Ref.objKey filename

/-- Index of the first successful attempt among `range retries`, modelling
the inner `for attempt in range(upload_retries)` loop (the fixed
`time.sleep(delay)` between attempts has no observable effect here). -/
def first_successful_attempt (ok : Nat → Bool) (retries : Nat) : Option Nat :=
  (List.range retries).find? ok

/-- Embedding of the backend loop of `upload_to_s3`: walk the configured
backends in order, skip a backend whose live health flag is false or whose
client is missing, return on the first backend with a successful attempt,
and otherwise mark the backend unhealthy, record the failure time and move
on.  Returns the reference (if any), the final health dict and the final
`last_s3_failure`. -/
def upload_loop (env : S3Env) (file_type filename : String) :
    List (String × S3Config) → (String → Bool) → Int →
    Option S3Ref × (String → Bool) × Int
  | [], health, last_failure => (none, health, last_failure)
  | (name, cfg) :: rest, health, last_failure =>
    if health name = false then
      upload_loop env file_type filename rest health last_failure
    else if env.has_client name = false then
      upload_loop env file_type filename rest health last_failure
    else
      match first_successful_attempt (env.attempt_ok name) env.upload_retries with
      | some _ => (some (s3_reference file_type cfg filename), health, last_failure)
      | none =>
        upload_loop env file_type filename rest
          (fun m => if m = name then false else health m) env.now

/-- Embedding of `KafkaHandler.upload_to_s3`. -/
def upload_to_s3 (env : S3Env) (file_type uuid : String) :
    Option S3Ref × (String → Bool) × Int :=
  upload_loop env file_type (s3_filename file_type uuid) env.s3_configs
    env.s3_health env.last_s3_failure

/-- The backends `upload_to_s3` actually tries, given a health dict: the
configured ones, in order, that are healthy and have a client. -/
def healthy_with_client (env : S3Env) (health : String → Bool)
    (cfgs : List (String × S3Config)) : List (String × S3Config) :=
  cfgs.filter (fun p => health p.1 && env.has_client p.1)

/-- Whether a backend has at least one successful attempt within the
configured retry budget. -/
def backend_wins (env : S3Env) (p : String × S3Config) : Bool :=
  (first_successful_attempt (env.attempt_ok p.1) env.upload_retries).isSome

/-- Environment of the broker failover logic: configured brokers, their
health dict, the round-robin index, failure bookkeeping, and oracles for
connectivity probes and producer construction. -/
structure BrokerEnv where
  brokers : List String
  broker_health : String → Bool
  current_broker_index : Nat
  last_broker_failure : Int
  broker_failover_timeout : Int
  now : Int
  probe_ok : String → Bool
  create_ok : String → Bool

/-- Embedding of `KafkaHandler._get_next_healthy_broker`: once
`failover_timeout` has elapsed since the last failure, re-probe every
unhealthy configured broker; then pick the broker at
`current_broker_index % len(healthy)` among the healthy ones (in configured
order) and advance the index. -/
def get_next_healthy_broker (env : BrokerEnv) : Option String × BrokerEnv :=
  let health' :=
    if env.broker_failover_timeout < env.now - env.last_broker_failure then
      fun b => if b ∈ env.brokers && !env.broker_health b then env.probe_ok b
               else env.broker_health b
    else env.broker_health
  let healthy := env.brokers.filter health'
  if healthy.isEmpty then (none, { env with broker_health := health' })
  else
    (some (healthy.getD (env.current_broker_index % healthy.length) ""),
      { env with
        broker_health := health',
        current_broker_index := env.current_broker_index + 1 })

/-- Embedding of `KafkaHandler._create_kafka_producer`: ask for the next
healthy broker; on construction/probe failure mark that broker unhealthy and
record the failure time.  The connection handle is identified with the
broker it was opened against. -/
def create_kafka_producer (env : BrokerEnv) : Option String × BrokerEnv :=
  match get_next_healthy_broker env with
  | (none, env') => (none, env')
  | (some broker, env') =>
    if env.create_ok broker then (some broker, env')
    else
      (none,
        { env' with
          broker_health := fun b => if b = broker then false
                                    else env'.broker_health b,
          last_broker_failure := env.now })

/-- Embedding of `KafkaHandler._handle_broker_failure`: close and discard
the current connection (returned in the closed-connection list), then create
a fresh producer. -/
def handle_broker_failure (env : BrokerEnv) (pipeline : Option String) :
    Option String × BrokerEnv × List String :=
  let closed := pipeline.toList
  let res := create_kafka_producer env
  (res.1, res.2, closed)

/-- Observable outcome of one `process_*_queue` call: the returned boolean,
the final pipeline and broker environment, the connections closed, the
number of `send` attempts made, and the number of error-log publishes
performed on this path. -/
structure PublishResult where
  success : Bool
  pipeline : Option String
  env : BrokerEnv
  closed : List String
  send_attempts : Nat
  error_log_sends : Nat

/-- Embedding of `KafkaHandler.process_analytics_queue`.  `queue_front` is
the result of `get_nowait()` (`none` models `queue.Empty`, `some none` a
literal `None` message); `send_ok i conn` resolves the outcome of the i-th
`send`/`flush`.  Note the code never calls `send_error_log` on this path, so
`error_log_sends` is always 0. -/
def process_analytics_queue (env : BrokerEnv) (pipeline : Option String)
    (queue_front : Option (Option Nat)) (topic_is_none : Bool)
    (send_ok : Nat → String → Bool) : PublishResult :=
  match queue_front with
  | none => ⟨true, pipeline, env, [], 0, 0⟩
  | some msg =>
    if msg.isNone || topic_is_none then ⟨true, pipeline, env, [], 0, 0⟩
    else
      match pipeline with
      | some conn =>
        if send_ok 0 conn then ⟨true, some conn, env, [], 1, 0⟩
        else
          match handle_broker_failure env (some conn) with
          | (some conn2, env', closed) =>
            if send_ok 1 conn2 then ⟨true, some conn2, env', closed, 2, 0⟩
            else ⟨false, some conn2, env', closed, 2, 0⟩
          | (none, env', closed) => ⟨false, none, env', closed, 1, 0⟩
      | none => ⟨false, none, env, [], 0, 0⟩

/-- Message drained from the events queue: optional byte payloads (Python
truthiness distinguishes a missing key, `None`, and empty bytes). -/
structure EventMsg where
  org_img : Option (List Nat)
  snap_shot : Option (List Nat)
  video : Option (List Nat)

/-- Python truthiness of an optional bytes value: present and non-empty. -/
def truthy_bytes : Option (List Nat) → Bool
  | none => false
  | some bs => !bs.isEmpty

/-- Embedding of `KafkaHandler.process_events_queue`, with the three
`upload_to_s3` outcomes supplied as oracles (the upload is attempted only
for truthy payloads).  Publish happens only when both the image and the
snapshot upload succeeded; the same single-retry-after-reconnect policy as
the analytics path applies.  A `queue.Empty` (`queue_front = none`) returns
`True`. -/
def process_events_queue (env : BrokerEnv) (pipeline : Option String)
    (queue_front : Option (Option EventMsg)) (topic_is_none : Bool)
    (image_upload snap_upload : Option S3Ref)
    (send_ok : Nat → String → Bool) : PublishResult :=
  match queue_front with
  | none => ⟨true, pipeline, env, [], 0, 0⟩
  | some msg =>
    match msg with
    | none => ⟨true, pipeline, env, [], 0, 0⟩
    | some m =>
      if topic_is_none then ⟨true, pipeline, env, [], 0, 0⟩
      else
        let image_ref := if truthy_bytes m.org_img then image_upload else none
        let snap_ref := if truthy_bytes m.snap_shot then snap_upload else none
        if image_ref.isSome && snap_ref.isSome then
          match pipeline with
          | some conn =>
            if send_ok 0 conn then ⟨true, some conn, env, [], 1, 0⟩
            else
              match handle_broker_failure env (some conn) with
              | (some conn2, env', closed) =>
                if send_ok 1 conn2 then ⟨true, some conn2, env', closed, 2, 0⟩
                else ⟨false, some conn2, env', closed, 2, 0⟩
              | (none, env', closed) => ⟨false, none, env', closed, 1, 0⟩
          | none => ⟨false, none, env, [], 0, 0⟩
        else ⟨false, pipeline, env, [], 0, 0⟩

/-- Embedding of the backoff arithmetic at the bottom of
`run_kafka_loop`'s main loop: `messages_processed` counts the queue-process
calls that returned `True`; if none did, the empty-cycle counter is bumped
and the sleep is `min(2 * counter, 10)` seconds, otherwise the counter
resets and the loop sleeps 0.1 seconds. -/
def kafka_loop_pass (events_result analytics_result : Bool)
    (consecutive_empty_cycles : Nat) : Nat × ℚ :=
  let messages_processed :=
    (if events_result then 1 else 0) + (if analytics_result then 1 else 0)
  if messages_processed = 0 then
    (consecutive_empty_cycles + 1,
      min (2 * ((consecutive_empty_cycles : ℚ) + 1)) 10)
  else (0, (1 : ℚ) / 10)

/-- Concrete broker environment with two healthy brokers, used to exercise
the publish-failure path. -/
def demo_broker_env : BrokerEnv where
  brokers := ["brokerA", "brokerB"]
  broker_health := fun _ => true
  current_broker_index := 1
  last_broker_failure := 0
  broker_failover_timeout := 30
  now := 100
  probe_ok := fun _ => true
  create_ok := fun _ => true

/-- Concrete two-backend S3 environment: every attempt against `primary`
fails and the first attempt against `secondary` succeeds. -/
def demo_s3_env : S3Env where
  s3_configs :=
    [("primary", ⟨"bucketA", "regionA"⟩), ("secondary", ⟨"bucketB", "regionB"⟩)]
  s3_health := fun _ => true
  has_client := fun _ => true
  upload_retries := 2
  attempt_ok := fun name _ => name == "secondary"
  last_s3_failure := 0
  now := 77

/-- Bucket-state mutations performed by the radar handler, for tracking the
lock discipline of each code path. -/
inductive RadarAction where
  | insert_rank1
  | insert_rank2
  | promote_rank2_to_rank3
  | match_buckets
  deriving DecidableEq, Repr

/-- An action paired with whether the code performing it holds
`self.radar_lock` at that point. -/
structure TracedAction where
  action : RadarAction
  holds_radar_lock : Bool
  deriving DecidableEq, Repr

/-- Lock-discipline trace of one `_radar_read_loop` iteration that decoded a
reading: the counter is reset on a large jump from the previous reading,
then a non-zero speed is routed to rank-1 (`count == 1`) or rank-2 plus the
rank-2→rank-3 promotion (`count` even).  The loop body contains no
`with self.radar_lock` block (nor do `_add_speed_to_rank` and
`_process_rank2_to_rank3`), so every recorded action carries
`holds_radar_lock = false`. -/
def radar_read_iter_actions (count_radar : Nat) (speed : Int)
    (previous_reading : Option Int) (max_diff_rais : Int) : List TracedAction :=
  let count0 :=
    match previous_reading with
    | some prev => if max_diff_rais < |speed - prev| then 0 else count_radar
    | none => count_radar
  if speed ≠ 0 then
    let c := count0 + 1
    if c = 1 then [⟨RadarAction.insert_rank1, false⟩]
    else if c % 2 = 0 then
      [⟨RadarAction.insert_rank2, false⟩,
        ⟨RadarAction.promote_rank2_to_rank3, false⟩]
    else []
  else []

/-- Lock-discipline trace of `get_radar_data`: its entire body runs inside
`with self.radar_lock`, so its bucket access carries
`holds_radar_lock = true`. -/
def get_radar_data_actions : List TracedAction :=
  [⟨RadarAction.match_buckets, true⟩]

/-- Closed-form value of the decoder on a single 4-byte frame: the sliding
loop visits only position 0 and the leftover 3-byte suffix never matches. -/
theorem process_speed_data_quad (b0 b1 b2 b3 : Nat) :
    process_speed_data [b0, b1, b2, b3] =
      if b0 = 0xFC ∧ b1 = 0xFA ∧ b3 = 0x00 then
        if 0x0F ≤ b2 ∧ b2 ≤ 0xFA then
          some ⟨b2, Direction.approaching, TargetType.primary⟩
        else none
      else if b0 = 0xFB ∧ b1 = 0xFD ∧ b3 = 0x00 then
        if b2 ≤ 0xFA then
          some ⟨b2, Direction.receding, TargetType.leading⟩
        else none
      else none := by
  simp only [process_speed_data]

/-- C6: for every 4-byte frame, `decode` returns speed `b2` with direction
`Approaching` and type `Primary` exactly when the frame is
`0xFC 0xFA b2 0x00` with `b2 ∈ [0x0F, 0xFA]`; it returns speed `b2` with
direction `Receding` and type `Leading` exactly when the frame is
`0xFB 0xFD b2 0x00` with `b2 ∈ [0x00, 0xFA]`; and it returns `none` for every
other byte pattern or out-of-range magnitude. -/
theorem decode_frame_characterization (b0 b1 b2 b3 : Nat) :
    (∀ s : Nat,
      process_speed_data [b0, b1, b2, b3] =
          some ⟨s, Direction.approaching, TargetType.primary⟩ ↔
        s = b2 ∧ b0 = 0xFC ∧ b1 = 0xFA ∧ b3 = 0x00 ∧ 0x0F ≤ b2 ∧ b2 ≤ 0xFA) ∧
    (∀ s : Nat,
      process_speed_data [b0, b1, b2, b3] =
          some ⟨s, Direction.receding, TargetType.leading⟩ ↔
        s = b2 ∧ b0 = 0xFB ∧ b1 = 0xFD ∧ b3 = 0x00 ∧ b2 ≤ 0xFA) ∧
    (¬ (b0 = 0xFC ∧ b1 = 0xFA ∧ b3 = 0x00 ∧ 0x0F ≤ b2 ∧ b2 ≤ 0xFA) →
      ¬ (b0 = 0xFB ∧ b1 = 0xFD ∧ b3 = 0x00 ∧ b2 ≤ 0xFA) →
      process_speed_data [b0, b1, b2, b3] = none) := by
  rw [process_speed_data_quad]
  refine ⟨fun s => ?_, fun s => ?_, fun h1 h2 => ?_⟩ <;>
    split_ifs with ha hb hc <;> simp_all <;> omega

/-- Witness for C6 at concrete frames: the end-to-end frame
`0xFC 0xFA 0x32 0x00` decodes to speed 50 Approaching/Primary, and a
non-matching frame decodes to nothing. -/
theorem decode_frame_characterization_witness :
    process_speed_data [0xFC, 0xFA, 0x32, 0x00] =
        some ⟨0x32, Direction.approaching, TargetType.primary⟩ ∧
    process_speed_data [0x01, 0x02, 0x03, 0x04] = none := by
  constructor
  · exact ((decode_frame_characterization 0xFC 0xFA 0x32 0x00).1 0x32).mpr
      (by norm_num)
  · exact (decode_frame_characterization 0x01 0x02 0x03 0x04).2.2
      (by norm_num) (by norm_num)

/-- Python's `min` over a nonempty collection returns one of its elements. -/
theorem pyMin_mem (key : Entry → Int) :
    ∀ (l : List Entry) (b : Entry), pyMin key b l = b ∨ pyMin key b l ∈ l
  | [], _ => Or.inl rfl
  | x :: xs, b => by
    simp only [pyMin]
    by_cases hx : key x < key b
    · simp only [if_pos hx]
      rcases pyMin_mem key xs x with h | h
      · exact Or.inr (by simp [h])
      · exact Or.inr (List.mem_cons_of_mem _ h)
    · simp only [if_neg hx]
      rcases pyMin_mem key xs b with h | h
      · exact Or.inl h
      · exact Or.inr (List.mem_cons_of_mem _ h)

/-- Python's `min` returns an element whose key is at most every key in the
collection (including the seed element). -/
theorem pyMin_key_le (key : Entry → Int) :
    ∀ (l : List Entry) (b : Entry),
      key (pyMin key b l) ≤ key b ∧ ∀ x ∈ l, key (pyMin key b l) ≤ key x
  | [], _ => ⟨le_refl _, by simp⟩
  | x :: xs, b => by
    simp only [pyMin]
    by_cases hx : key x < key b
    · simp only [if_pos hx]
      obtain ⟨h1, h2⟩ := pyMin_key_le key xs x
      refine ⟨le_trans h1 (le_of_lt hx), ?_⟩
      intro y hy
      rcases List.mem_cons.mp hy with rfl | hy
      · exact h1
      · exact h2 y hy
    · push_neg at hx
      simp only [if_neg (not_lt.mpr hx)]
      obtain ⟨h1, h2⟩ := pyMin_key_le key xs b
      refine ⟨h1, ?_⟩
      intro y hy
      rcases List.mem_cons.mp hy with rfl | hy
      · exact le_trans h1 hx
      · exact h2 y hy

/-- Python's `min` over `v :: vs` is a member attaining the minimal key. -/
theorem pyMin_spec (key : Entry → Int) (v : Entry) (vs : List Entry) :
    pyMin key v vs ∈ v :: vs ∧ ∀ e ∈ v :: vs, key (pyMin key v vs) ≤ key e := by
  constructor
  · rcases pyMin_mem key vs v with h | h
    · rw [h]; exact List.mem_cons_self _ _
    · exact List.mem_cons_of_mem _ h
  · intro e he
    obtain ⟨h1, h2⟩ := pyMin_key_le key vs v
    rcases List.mem_cons.mp he with rfl | he
    · exact h1
    · exact h2 e he

/-- C5: in normal (non-calibration) mode, a match examines rank-1, rank-2,
rank-3 in strict priority order; it never returns an entry whose speed is at
or below `threshold - 5`; in the first bucket containing an entry above
`threshold - 5` it selects an entry with the earliest timestamp, removes it
from that bucket only, and returns its speed; if no bucket has an eligible
entry it returns `none` and leaves the state unchanged. -/
theorem normal_mode_match (st : RadarState) (ai_speed threshold : Int)
    (obj_class : Nat) (hmode : st.is_calibrating obj_class = some false) :
    ∃ r st', get_radar_data st ai_speed threshold obj_class = Except.ok (r, st') ∧
      ((r = none ∧ st' = st ∧
          st.rank1.filter (fun e => threshold - 5 < e.2) = [] ∧
          st.rank2.filter (fun e => threshold - 5 < e.2) = [] ∧
          st.rank3.filter (fun e => threshold - 5 < e.2) = []) ∨
        (∃ best : Entry, r = some best.2 ∧ threshold - 5 < best.2 ∧
          ((best ∈ st.rank1.filter (fun e => threshold - 5 < e.2) ∧
              (∀ e ∈ st.rank1.filter (fun e => threshold - 5 < e.2), best.1 ≤ e.1) ∧
              st' = { st with rank1 := st.rank1.erase best }) ∨
            (st.rank1.filter (fun e => threshold - 5 < e.2) = [] ∧
              best ∈ st.rank2.filter (fun e => threshold - 5 < e.2) ∧
              (∀ e ∈ st.rank2.filter (fun e => threshold - 5 < e.2), best.1 ≤ e.1) ∧
              st' = { st with rank2 := st.rank2.erase best }) ∨
            (st.rank1.filter (fun e => threshold - 5 < e.2) = [] ∧
              st.rank2.filter (fun e => threshold - 5 < e.2) = [] ∧
              best ∈ st.rank3.filter (fun e => threshold - 5 < e.2) ∧
              (∀ e ∈ st.rank3.filter (fun e => threshold - 5 < e.2), best.1 ≤ e.1) ∧
              st' = { st with rank3 := st.rank3.erase best })))) := by
  by_cases hempty : st.rank1 = [] ∧ st.rank2 = [] ∧ st.rank3 = []
  · refine ⟨none, st, ?_, Or.inl ⟨rfl, rfl, ?_, ?_, ?_⟩⟩
    · simp [get_radar_data, hempty]
    · rw [hempty.1]; rfl
    · rw [hempty.2.1]; rfl
    · rw [hempty.2.2]; rfl
  · have hstep : get_radar_data st ai_speed threshold obj_class =
        Except.ok (get_best_match_from_ranks st (threshold - 5)) := by
      simp [get_radar_data, hempty, hmode]
    rcases hf1 : st.rank1.filter (fun e => threshold - 5 < e.2) with _ | ⟨v, vs⟩
    · rcases hf2 : st.rank2.filter (fun e => threshold - 5 < e.2) with _ | ⟨v, vs⟩
      · rcases hf3 : st.rank3.filter (fun e => threshold - 5 < e.2) with _ | ⟨v, vs⟩
        · refine ⟨none, st, ?_, Or.inl ⟨rfl, rfl, hf1, hf2, hf3⟩⟩
          rw [hstep]
          simp [get_best_match_from_ranks, hf1, hf2, hf3]
        · obtain ⟨hmem, hmin⟩ := pyMin_spec (fun e => e.1) v vs
          refine ⟨some (pyMin (fun e => e.1) v vs).2,
            { st with rank3 := st.rank3.erase (pyMin (fun e => e.1) v vs) }, ?_,
            Or.inr ⟨pyMin (fun e => e.1) v vs, rfl, ?_, Or.inr (Or.inr
              ⟨hf1, hf2, hf3 ▸ hmem, fun e he => hmin e (hf3 ▸ he), rfl⟩)⟩⟩
          · rw [hstep]
            simp [get_best_match_from_ranks, hf1, hf2, hf3]
          · have := List.of_mem_filter (hf3 ▸ hmem)
            simpa using this
      · obtain ⟨hmem, hmin⟩ := pyMin_spec (fun e => e.1) v vs
        refine ⟨some (pyMin (fun e => e.1) v vs).2,
          { st with rank2 := st.rank2.erase (pyMin (fun e => e.1) v vs) }, ?_,
          Or.inr ⟨pyMin (fun e => e.1) v vs, rfl, ?_, Or.inr (Or.inl
            ⟨hf1, hf2 ▸ hmem, fun e he => hmin e (hf2 ▸ he), rfl⟩)⟩⟩
        · rw [hstep]
          simp [get_best_match_from_ranks, hf1, hf2]
        · have := List.of_mem_filter (hf2 ▸ hmem)
          simpa using this
    · obtain ⟨hmem, hmin⟩ := pyMin_spec (fun e => e.1) v vs
      refine ⟨some (pyMin (fun e => e.1) v vs).2,
        { st with rank1 := st.rank1.erase (pyMin (fun e => e.1) v vs) }, ?_,
        Or.inr ⟨pyMin (fun e => e.1) v vs, rfl, ?_, Or.inl
          ⟨hf1 ▸ hmem, fun e he => hmin e (hf1 ▸ he), rfl⟩⟩⟩
      · rw [hstep]
        simp [get_best_match_from_ranks, hf1]
      · have := List.of_mem_filter (hf1 ▸ hmem)
        simpa using this

/-- Witness for C5: in the concrete normal-mode state the match skips the
ineligible rank-1 entry and consumes the earliest eligible rank-2 entry. -/
theorem normal_mode_match_witness :
    normal_demo_state.is_calibrating 0 = some false ∧
    ∃ r st', get_radar_data normal_demo_state 48 40 0 = Except.ok (r, st') := by
  refine ⟨rfl, ?_⟩
  obtain ⟨r, st', h, -⟩ := normal_mode_match normal_demo_state 48 40 0 rfl
  exact ⟨r, st', h⟩

/-- C9: whenever all three rank buckets are empty, a match call returns
`none` before consulting the calibration map — even for an unregistered
class — so a `KeyError` is reachable only when some bucket is non-empty. -/
theorem empty_buckets_never_raise (st : RadarState) (ai_speed threshold : Int)
    (obj_class : Nat) :
    (st.rank1 = [] → st.rank2 = [] → st.rank3 = [] →
      get_radar_data st ai_speed threshold obj_class = Except.ok (none, st)) ∧
    (∀ e : Unit, get_radar_data st ai_speed threshold obj_class = Except.error e →
      st.rank1 ≠ [] ∨ st.rank2 ≠ [] ∨ st.rank3 ≠ []) := by
  constructor
  · intro h1 h2 h3
    simp [get_radar_data, h1, h2, h3]
  · intro e herr
    by_contra hcon
    push_neg at hcon
    obtain ⟨n1, n2, n3⟩ := hcon
    rw [get_radar_data, if_pos ⟨n1, n2, n3⟩] at herr
    exact Except.noConfusion herr

/-- Witness for C9: on the all-empty state with an unregistered class the
call returns `none` instead of raising. -/
theorem empty_buckets_never_raise_witness :
    get_radar_data empty_demo_state 10 40 7 = Except.ok (none, empty_demo_state) :=
  (empty_buckets_never_raise empty_demo_state 10 40 7).1 rfl rfl rfl

/-- Case analysis of `get_best_match_from_ranks`: either some entry of
exactly one bucket is erased and its speed returned, or nothing matched and
the state is returned unchanged. -/
theorem get_best_match_from_ranks_cases (st : RadarState) (ms : Int) :
    (∃ best, best ∈ st.rank1 ∧ get_best_match_from_ranks st ms =
        (some best.2, { st with rank1 := st.rank1.erase best })) ∨
    (∃ best, best ∈ st.rank2 ∧ get_best_match_from_ranks st ms =
        (some best.2, { st with rank2 := st.rank2.erase best })) ∨
    (∃ best, best ∈ st.rank3 ∧ get_best_match_from_ranks st ms =
        (some best.2, { st with rank3 := st.rank3.erase best })) ∨
    get_best_match_from_ranks st ms = (none, st) := by
  rcases hf1 : st.rank1.filter (fun e => ms < e.2) with _ | ⟨v, vs⟩
  · rcases hf2 : st.rank2.filter (fun e => ms < e.2) with _ | ⟨v, vs⟩
    · rcases hf3 : st.rank3.filter (fun e => ms < e.2) with _ | ⟨v, vs⟩
      · exact Or.inr (Or.inr (Or.inr (by
          simp [get_best_match_from_ranks, hf1, hf2, hf3])))
      · refine Or.inr (Or.inr (Or.inl ⟨pyMin (fun e => e.1) v vs, ?_, ?_⟩))
        · exact (List.mem_filter.mp (hf3 ▸ (pyMin_spec (fun e => e.1) v vs).1)).1
        · simp [get_best_match_from_ranks, hf1, hf2, hf3]
    · refine Or.inr (Or.inl ⟨pyMin (fun e => e.1) v vs, ?_, ?_⟩)
      · exact (List.mem_filter.mp (hf2 ▸ (pyMin_spec (fun e => e.1) v vs).1)).1
      · simp [get_best_match_from_ranks, hf1, hf2]
  · refine Or.inl ⟨pyMin (fun e => e.1) v vs, ?_, ?_⟩
    · exact (List.mem_filter.mp (hf1 ▸ (pyMin_spec (fun e => e.1) v vs).1)).1
    · simp [get_best_match_from_ranks, hf1]

/-- Injectivity of a successful match result, reduced to its components. -/
theorem ok_pair_inj {r1 r2 : Option Int} {s1 s2 : RadarState}
    (h : (Except.ok (r1, s1) : Except Unit (Option Int × RadarState)) =
      Except.ok (r2, s2)) : r1 = r2 ∧ s1 = s2 := by
  injection h with h2
  exact ⟨congrArg Prod.fst h2, congrArg Prod.snd h2⟩

/-- Computation rule for `handle_calibration_mode` when no rank-1 entry is
above `min_speed`. -/
theorem hcm_nil (st : RadarState) (ai_speed min_speed : Int) (obj_class : Nat)
    (hf : st.rank1.filter (fun e => min_speed < e.2) = []) :
    handle_calibration_mode st ai_speed obj_class min_speed =
      Except.ok (none, st) := by
  unfold handle_calibration_mode
  rw [hf]

/-- Computation rule for `handle_calibration_mode` when eligible entries
exist but the class has no calibration counter: a `KeyError` is raised. -/
theorem hcm_cons_none (st : RadarState) (ai_speed min_speed : Int)
    (obj_class : Nat) (v : Entry) (vs : List Entry)
    (hf : st.rank1.filter (fun e => min_speed < e.2) = v :: vs)
    (hcnt : st.class_calibration_count obj_class = none) :
    handle_calibration_mode st ai_speed obj_class min_speed =
      Except.error () := by
  unfold handle_calibration_mode
  rw [hf, hcnt]

/-- Computation rule for `handle_calibration_mode` when eligible entries
exist and the class calibration counter is registered. -/
theorem hcm_cons_some (st : RadarState) (ai_speed min_speed : Int)
    (obj_class : Nat) (v : Entry) (vs : List Entry) (c : Nat)
    (hf : st.rank1.filter (fun e => min_speed < e.2) = v :: vs)
    (hcnt : st.class_calibration_count obj_class = some c) :
    handle_calibration_mode st ai_speed obj_class min_speed =
      Except.ok (some (pyMin (fun e => |e.2 - ai_speed|) v vs).2,
        if c ≤ st.calibration_required then
          { st with
            class_calibration_count :=
              updMap st.class_calibration_count obj_class (c + 1),
            rank1 := st.rank1.erase (pyMin (fun e => |e.2 - ai_speed|) v vs) }
        else
          { st with
            is_calibrating := updMap st.is_calibrating obj_class false,
            rank1 := st.rank1.erase (pyMin (fun e => |e.2 - ai_speed|) v vs) }) := by
  unfold handle_calibration_mode
  rw [hf, hcnt]
  by_cases hc : c ≤ st.calibration_required
  · simp [hc]
  · simp [hc, stop_calbirating]

/-- Computation rule for `get_radar_data` when some bucket is non-empty:
it dispatches on the class calibration flag. -/
theorem get_radar_data_dispatch (st : RadarState) (ai_speed threshold : Int)
    (obj_class : Nat) (hne : ¬(st.rank1 = [] ∧ st.rank2 = [] ∧ st.rank3 = [])) :
    get_radar_data st ai_speed threshold obj_class =
      match st.is_calibrating obj_class with
      | none => Except.error ()
      | some true => handle_calibration_mode st ai_speed obj_class (threshold - 5)
      | some false => Except.ok (get_best_match_from_ranks st (threshold - 5)) := by
  rw [get_radar_data, if_neg hne]

/-- C10: a match call removes at most one entry across the three rank
buckets: returning a speed removes exactly one entry from exactly one bucket
(always rank-1 in calibration mode) and leaves the other two buckets
unchanged, and returning `none` leaves all three buckets unchanged. -/
theorem match_removes_at_most_one (st : RadarState) (ai_speed threshold : Int)
    (obj_class : Nat) (r : Option Int) (st' : RadarState)
    (h : get_radar_data st ai_speed threshold obj_class = Except.ok (r, st')) :
    (r = none → st'.rank1 = st.rank1 ∧ st'.rank2 = st.rank2 ∧ st'.rank3 = st.rank3) ∧
    (∀ s : Int, r = some s →
      ((∃ e ∈ st.rank1, st'.rank1 = st.rank1.erase e ∧
          st'.rank1.length + 1 = st.rank1.length ∧
          st'.rank2 = st.rank2 ∧ st'.rank3 = st.rank3) ∨
        (∃ e ∈ st.rank2, st'.rank2 = st.rank2.erase e ∧
          st'.rank2.length + 1 = st.rank2.length ∧
          st'.rank1 = st.rank1 ∧ st'.rank3 = st.rank3) ∨
        (∃ e ∈ st.rank3, st'.rank3 = st.rank3.erase e ∧
          st'.rank3.length + 1 = st.rank3.length ∧
          st'.rank1 = st.rank1 ∧ st'.rank2 = st.rank2))) ∧
    (st.is_calibrating obj_class = some true → ∀ s : Int, r = some s →
      ∃ e ∈ st.rank1, st'.rank1 = st.rank1.erase e ∧
        st'.rank2 = st.rank2 ∧ st'.rank3 = st.rank3) := by
  by_cases hempty : st.rank1 = [] ∧ st.rank2 = [] ∧ st.rank3 = []
  · rw [get_radar_data, if_pos hempty] at h
    obtain ⟨hr, hst⟩ := ok_pair_inj h
    subst hst
    subst hr
    exact ⟨fun _ => ⟨rfl, rfl, rfl⟩,
      fun s hs => Option.noConfusion hs,
      fun _ s hs => Option.noConfusion hs⟩
  · rw [get_radar_data_dispatch st ai_speed threshold obj_class hempty] at h
    rcases hcal : st.is_calibrating obj_class with _ | b
    · rw [hcal] at h
      exact Except.noConfusion h
    · cases b
      · -- normal mode
        rw [hcal] at h
        have h' : Except.ok (get_best_match_from_ranks st (threshold - 5)) =
            Except.ok (r, st') := h
        rcases get_best_match_from_ranks_cases st (threshold - 5) with
          ⟨best, hmem, heq⟩ | ⟨best, hmem, heq⟩ | ⟨best, hmem, heq⟩ | heq
        · rw [heq] at h'
          obtain ⟨hr, hst⟩ := ok_pair_inj h'
          subst hst
          subst hr
          have hlen := List.length_erase_of_mem hmem
          have hpos : 0 < st.rank1.length :=
            List.length_pos.mpr (List.ne_nil_of_mem hmem)
          refine ⟨fun hn => Option.noConfusion hn, fun s hs => ?_, fun hcal2 s hs => ?_⟩
          · refine Or.inl ⟨best, hmem, rfl, ?_, rfl, rfl⟩
            show (st.rank1.erase best).length + 1 = st.rank1.length
            omega
          · simp at hcal2
        · rw [heq] at h'
          obtain ⟨hr, hst⟩ := ok_pair_inj h'
          subst hst
          subst hr
          have hlen := List.length_erase_of_mem hmem
          have hpos : 0 < st.rank2.length :=
            List.length_pos.mpr (List.ne_nil_of_mem hmem)
          refine ⟨fun hn => Option.noConfusion hn, fun s hs => ?_, fun hcal2 s hs => ?_⟩
          · refine Or.inr (Or.inl ⟨best, hmem, rfl, ?_, rfl, rfl⟩)
            show (st.rank2.erase best).length + 1 = st.rank2.length
            omega
          · simp at hcal2
        · rw [heq] at h'
          obtain ⟨hr, hst⟩ := ok_pair_inj h'
          subst hst
          subst hr
          have hlen := List.length_erase_of_mem hmem
          have hpos : 0 < st.rank3.length :=
            List.length_pos.mpr (List.ne_nil_of_mem hmem)
          refine ⟨fun hn => Option.noConfusion hn, fun s hs => ?_, fun hcal2 s hs => ?_⟩
          · refine Or.inr (Or.inr ⟨best, hmem, rfl, ?_, rfl, rfl⟩)
            show (st.rank3.erase best).length + 1 = st.rank3.length
            omega
          · simp at hcal2
        · rw [heq] at h'
          obtain ⟨hr, hst⟩ := ok_pair_inj h'
          subst hst
          subst hr
          exact ⟨fun _ => ⟨rfl, rfl, rfl⟩,
            fun s hs => Option.noConfusion hs,
            fun _ s hs => Option.noConfusion hs⟩
      · -- calibration mode
        rw [hcal] at h
        have h' : handle_calibration_mode st ai_speed obj_class (threshold - 5) =
            Except.ok (r, st') := h
        by_cases hfnil : st.rank1.filter (fun e => threshold - 5 < e.2) = []
        · rw [hcm_nil st ai_speed (threshold - 5) obj_class hfnil] at h'
          obtain ⟨hr, hst⟩ := ok_pair_inj h'.symm
          subst hst
          subst hr
          exact ⟨fun _ => ⟨rfl, rfl, rfl⟩,
            fun s hs => Option.noConfusion hs,
            fun _ s hs => Option.noConfusion hs⟩
        · obtain ⟨v, vs, hf⟩ := List.exists_cons_of_ne_nil hfnil
          rcases hcnt : st.class_calibration_count obj_class with _ | c
          · rw [hcm_cons_none st ai_speed (threshold - 5) obj_class v vs hf hcnt] at h'
            exact Except.noConfusion h'
          · rw [hcm_cons_some st ai_speed (threshold - 5) obj_class v vs c hf hcnt] at h'
            have hmemf : pyMin (fun e => |e.2 - ai_speed|) v vs ∈
                st.rank1.filter (fun e => threshold - 5 < e.2) :=
              hf ▸ (pyMin_spec (fun e => |e.2 - ai_speed|) v vs).1
            have hmem : pyMin (fun e => |e.2 - ai_speed|) v vs ∈ st.rank1 :=
              (List.mem_filter.mp hmemf).1
            have hlen := List.length_erase_of_mem hmem
            have hpos : 0 < st.rank1.length :=
              List.length_pos.mpr (List.ne_nil_of_mem hmem)
            by_cases hc : c ≤ st.calibration_required
            · rw [if_pos hc] at h'
              obtain ⟨hr, hst⟩ := ok_pair_inj h'.symm
              subst hst
              subst hr
              refine ⟨fun hn => Option.noConfusion hn.symm, fun s hs => ?_,
                fun _ s hs => ?_⟩
              · refine Or.inl ⟨_, hmem, rfl, ?_, rfl, rfl⟩
                show (st.rank1.erase _).length + 1 = st.rank1.length
                omega
              · exact ⟨_, hmem, rfl, rfl, rfl⟩
            · rw [if_neg hc] at h'
              obtain ⟨hr, hst⟩ := ok_pair_inj h'.symm
              subst hst
              subst hr
              refine ⟨fun hn => Option.noConfusion hn.symm, fun s hs => ?_,
                fun _ s hs => ?_⟩
              · refine Or.inl ⟨_, hmem, rfl, ?_, rfl, rfl⟩
                show (st.rank1.erase _).length + 1 = st.rank1.length
                omega
              · exact ⟨_, hmem, rfl, rfl, rfl⟩

/-- Witness for C10: in the concrete normal-mode state the match consumes
exactly the entry `(3, 70)` of rank-2, leaving `[(5, 60)]`. -/
theorem match_removes_at_most_one_witness :
    ∃ e ∈ normal_demo_state.rank2, [((5 : Int), (60 : Int))] = normal_demo_state.rank2.erase e := by
  have h : get_radar_data normal_demo_state 48 40 0 =
      Except.ok (some 70, { normal_demo_state with rank2 := [(5, 60)] }) := by rfl
  obtain ⟨-, h2, -⟩ := match_removes_at_most_one normal_demo_state 48 40 0
    (some 70) { normal_demo_state with rank2 := [(5, 60)] } h
  rcases h2 70 rfl with ⟨e, he, -, hlen, -⟩ | ⟨e, he, heq, -⟩ | ⟨e, he, -, hlen, -⟩
  · simp [normal_demo_state] at hlen
  · exact ⟨e, he, heq⟩
  · simp [normal_demo_state] at hlen

/-- Erasing an element of the filtered list shortens the filtered list by
exactly one. -/
theorem length_filter_erase (p : Entry → Bool) (b : Entry) :
    ∀ l : List Entry, b ∈ l.filter p →
      ((l.erase b).filter p).length + 1 = (l.filter p).length
  | [], h => by simp at h
  | x :: xs, h => by
    by_cases hbx : x = b
    · subst hbx
      have hpx : p x = true := (List.mem_filter.mp h).2
      rw [List.erase_cons_head]
      simp [List.filter_cons, hpx]
    · rw [List.erase_cons_tail (by simpa using hbx)]
      have hmem : b ∈ xs.filter p := by
        rcases List.mem_filter.mp h with ⟨hm, hp⟩
        rcases List.mem_cons.mp hm with rfl | hm
        · exact absurd rfl hbx
        · exact List.mem_filter.mpr ⟨hm, hp⟩
      have ih := length_filter_erase p b xs hmem
      by_cases hpx : p x = true
      · simp [List.filter_cons, hpx]
        omega
      · simp at hpx
        simp [List.filter_cons, hpx]
        omega

/-- One calibration-mode match, fully described: the nearest eligible rank-1
entry is consumed and returned, the counter is bumped while it is at most
`calibration_required`, and calibration is switched off once the counter
exceeds it. -/
theorem calib_match_step (st : RadarState) (ai_speed threshold : Int)
    (obj_class : Nat) (c : Nat) (v : Entry) (vs : List Entry)
    (hcal : st.is_calibrating obj_class = some true)
    (hf : st.rank1.filter (fun e => threshold - 5 < e.2) = v :: vs)
    (hcnt : st.class_calibration_count obj_class = some c) :
    ∃ best st', best ∈ st.rank1.filter (fun e => threshold - 5 < e.2) ∧
      (∀ e ∈ st.rank1.filter (fun e => threshold - 5 < e.2),
        |best.2 - ai_speed| ≤ |e.2 - ai_speed|) ∧
      get_radar_data st ai_speed threshold obj_class =
        Except.ok (some best.2, st') ∧
      st'.rank1 = st.rank1.erase best ∧
      st'.rank2 = st.rank2 ∧ st'.rank3 = st.rank3 ∧
      st'.calibration_required = st.calibration_required ∧
      (st'.rank1.filter (fun e => threshold - 5 < e.2)).length + 1 =
        (st.rank1.filter (fun e => threshold - 5 < e.2)).length ∧
      (c ≤ st.calibration_required →
        st'.is_calibrating obj_class = some true ∧
        st'.class_calibration_count obj_class = some (c + 1)) ∧
      (st.calibration_required < c →
        st'.is_calibrating obj_class = some false ∧
        st'.class_calibration_count obj_class = some c) := by
  have hne : ¬(st.rank1 = [] ∧ st.rank2 = [] ∧ st.rank3 = []) := by
    rintro ⟨h1, -, -⟩
    rw [h1] at hf
    simp at hf
  have hdisp : get_radar_data st ai_speed threshold obj_class =
      handle_calibration_mode st ai_speed obj_class (threshold - 5) := by
    rw [get_radar_data_dispatch st ai_speed threshold obj_class hne, hcal]
  rw [hcm_cons_some st ai_speed (threshold - 5) obj_class v vs c hf hcnt] at hdisp
  obtain ⟨hmem0, hmin0⟩ := pyMin_spec (fun e => |e.2 - ai_speed|) v vs
  have hmem : pyMin (fun e => |e.2 - ai_speed|) v vs ∈
      st.rank1.filter (fun e => threshold - 5 < e.2) := hf ▸ hmem0
  by_cases hc : c ≤ st.calibration_required
  · rw [if_pos hc] at hdisp
    refine ⟨_, _, hmem, fun e he => hmin0 e (hf ▸ he), hdisp, rfl, rfl, rfl, rfl,
      ?_, fun _ => ⟨hcal, ?_⟩, fun hgt => absurd hc (not_le.mpr hgt)⟩
    · exact length_filter_erase _ _ st.rank1 hmem
    · simp [updMap]
  · rw [if_neg hc] at hdisp
    refine ⟨_, _, hmem, fun e he => hmin0 e (hf ▸ he), hdisp, rfl, rfl, rfl, rfl,
      ?_, fun hle => absurd hle hc, fun _ => ⟨?_, hcnt⟩⟩
    · exact length_filter_erase _ _ st.rank1 hmem
    · simp [updMap]

/-- Splitting an iterated match run into two consecutive runs. -/
theorem iter_match_add (ai_speed threshold : Int) (obj_class : Nat) :
    ∀ (m n : Nat) (st : RadarState),
      iter_match ai_speed threshold obj_class (m + n) st =
        match iter_match ai_speed threshold obj_class m st with
        | Except.error e => Except.error e
        | Except.ok st' => iter_match ai_speed threshold obj_class n st' := by
  intro m
  induction m with
  | zero =>
    intro n st
    rw [Nat.zero_add]
    rfl
  | succ m ih =>
    intro n st
    have harith : m + 1 + n = (m + n) + 1 := by omega
    rw [harith]
    rcases hg : get_radar_data st ai_speed threshold obj_class with e | p
    · simp [iter_match, hg]
    · simp [iter_match, hg, ih]

/-- Running `j` consecutive calibration-mode matches while the counter stays
within bounds: the class stays calibrating, the counter advances by one per
match, and each match consumes one eligible rank-1 entry. -/
theorem calib_run_aux (ai_speed threshold : Int) (obj_class : Nat) :
    ∀ (j : Nat) (st : RadarState) (c : Nat),
      st.is_calibrating obj_class = some true →
      st.class_calibration_count obj_class = some c →
      c + j ≤ st.calibration_required + 1 →
      j ≤ (st.rank1.filter (fun e => threshold - 5 < e.2)).length →
      ∃ st', iter_match ai_speed threshold obj_class j st = Except.ok st' ∧
        st'.is_calibrating obj_class = some true ∧
        st'.class_calibration_count obj_class = some (c + j) ∧
        st'.calibration_required = st.calibration_required ∧
        (st'.rank1.filter (fun e => threshold - 5 < e.2)).length + j =
          (st.rank1.filter (fun e => threshold - 5 < e.2)).length
  | 0, st, c, hcal, hcnt, _, _ => ⟨st, rfl, hcal, hcnt, rfl, rfl⟩
  | j + 1, st, c, hcal, hcnt, hbound, hlenb => by
    have hc : c ≤ st.calibration_required := by omega
    have hfne : st.rank1.filter (fun e => threshold - 5 < e.2) ≠ [] := by
      intro h0
      rw [h0] at hlenb
      simp at hlenb
    obtain ⟨v, vs, hf⟩ := List.exists_cons_of_ne_nil hfne
    obtain ⟨best, st1, hmem, hmin, hgrd, her, hr2, hr3, hreq, hlen1, hle, hgt⟩ :=
      calib_match_step st ai_speed threshold obj_class c v vs hcal hf hcnt
    obtain ⟨hcal1, hcnt1⟩ := hle hc
    have hstep : iter_match ai_speed threshold obj_class (j + 1) st =
        iter_match ai_speed threshold obj_class j st1 := by
      simp [iter_match, hgrd]
    have hbound1 : (c + 1) + j ≤ st1.calibration_required + 1 := by
      rw [hreq]
      omega
    have hlenb1 : j ≤ (st1.rank1.filter (fun e => threshold - 5 < e.2)).length := by
      omega
    obtain ⟨st', hiter, hcal', hcnt', hreq', hlen'⟩ :=
      calib_run_aux ai_speed threshold obj_class j st1 (c + 1) hcal1 hcnt1
        hbound1 hlenb1
    refine ⟨st', by rw [hstep]; exact hiter, hcal', ?_, by rw [hreq', hreq], by omega⟩
    have harith : c + 1 + j = c + (j + 1) := by omega
    rw [← harith]
    exact hcnt'

/-- C1 (amended): in calibration mode each successful match consumes the
eligible rank-1 entry nearest to `aiSpeed` and returns its speed; the class
match counter is incremented while it is at most `required = N`, and a match
finding the counter already above `N` turns calibration off instead of
incrementing.  Hence, starting from a zero counter, the first `N + 1`
successful matches keep calibration active (the counter reaching `N + 1`),
and it is the `(N + 2)`-th successful match — not the `(N + 1)`-th — that
disables calibration mode for the class. -/
theorem calibration_match_progression :
    (∀ (st : RadarState) (ai_speed threshold : Int) (obj_class : Nat)
      (c : Nat) (v : Entry) (vs : List Entry),
      st.is_calibrating obj_class = some true →
      st.rank1.filter (fun e => threshold - 5 < e.2) = v :: vs →
      st.class_calibration_count obj_class = some c →
      ∃ best st', best ∈ st.rank1.filter (fun e => threshold - 5 < e.2) ∧
        (∀ e ∈ st.rank1.filter (fun e => threshold - 5 < e.2),
          |best.2 - ai_speed| ≤ |e.2 - ai_speed|) ∧
        get_radar_data st ai_speed threshold obj_class =
          Except.ok (some best.2, st') ∧
        st'.rank1 = st.rank1.erase best ∧
        st'.rank2 = st.rank2 ∧ st'.rank3 = st.rank3 ∧
        (c ≤ st.calibration_required →
          st'.is_calibrating obj_class = some true ∧
          st'.class_calibration_count obj_class = some (c + 1)) ∧
        (st.calibration_required < c →
          st'.is_calibrating obj_class = some false ∧
          st'.class_calibration_count obj_class = some c)) ∧
    (∀ (st : RadarState) (ai_speed threshold : Int) (obj_class : Nat) (N : Nat),
      st.calibration_required = N →
      st.is_calibrating obj_class = some true →
      st.class_calibration_count obj_class = some 0 →
      N + 2 ≤ (st.rank1.filter (fun e => threshold - 5 < e.2)).length →
      (∀ j, j ≤ N + 1 →
        ∃ st', iter_match ai_speed threshold obj_class j st = Except.ok st' ∧
          st'.is_calibrating obj_class = some true ∧
          st'.class_calibration_count obj_class = some j) ∧
      (∃ st', iter_match ai_speed threshold obj_class (N + 2) st = Except.ok st' ∧
        st'.is_calibrating obj_class = some false)) := by
  constructor
  · intro st ai_speed threshold obj_class c v vs hcal hf hcnt
    obtain ⟨best, st', hmem, hmin, hgrd, her, hr2, hr3, -, -, hle, hgt⟩ :=
      calib_match_step st ai_speed threshold obj_class c v vs hcal hf hcnt
    exact ⟨best, st', hmem, hmin, hgrd, her, hr2, hr3, hle, hgt⟩
  · intro st ai_speed threshold obj_class N hreqN hcal hcnt0 hlen
    constructor
    · intro j hj
      obtain ⟨st', hiter, hcal', hcnt', -, -⟩ :=
        calib_run_aux ai_speed threshold obj_class j st 0 hcal hcnt0
          (by omega) (by omega)
      exact ⟨st', hiter, hcal', by simpa using hcnt'⟩
    · obtain ⟨st1, hiter1, hcal1, hcnt1, hreq1, hlen1⟩ :=
        calib_run_aux ai_speed threshold obj_class (N + 1) st 0 hcal hcnt0
          (by omega) (by omega)
      have hfne : st1.rank1.filter (fun e => threshold - 5 < e.2) ≠ [] := by
        intro h0
        rw [h0] at hlen1
        simp at hlen1
        omega
      obtain ⟨v, vs, hf1⟩ := List.exists_cons_of_ne_nil hfne
      obtain ⟨best, st2, -, -, hgrd2, -, -, -, -, -, -, hgt⟩ :=
        calib_match_step st1 ai_speed threshold obj_class (0 + (N + 1)) v vs
          hcal1 hf1 hcnt1
      obtain ⟨hcal2, -⟩ := hgt (by omega)
      refine ⟨st2, ?_, hcal2⟩
      have hsplit := iter_match_add ai_speed threshold obj_class (N + 1) 1 st
      have harith : N + 2 = (N + 1) + 1 := rfl
      rw [harith, hsplit, hiter1]
      simp [iter_match, hgrd2]

/-- C1 counterexample to the claim as stated: with `required = N = 1`, two
successful calibration matches leave calibration still active (the counter at
2), refuting that the `(N + 1)`-th match disables calibration mode. -/
theorem calibration_off_by_one_counterexample :
    calib_demo_state.calibration_required = 1 ∧
    ∃ st', iter_match 50 40 0 2 calib_demo_state = Except.ok st' ∧
      st'.is_calibrating 0 = some true ∧
      st'.class_calibration_count 0 = some 2 :=
  ⟨rfl, _, rfl, rfl, rfl⟩

/-- Witness for C1 (amended) with `N = 1` and three eligible entries: two
matches keep calibration active with the counter at 2, and the third match
disables it. -/
theorem calibration_match_progression_witness :
    (∃ st', iter_match 50 40 0 2 calib_demo3_state = Except.ok st' ∧
      st'.is_calibrating 0 = some true ∧
      st'.class_calibration_count 0 = some 2) ∧
    (∃ st', iter_match 50 40 0 3 calib_demo3_state = Except.ok st' ∧
      st'.is_calibrating 0 = some false) := by
  obtain ⟨hruns, hoff⟩ := calibration_match_progression.2 calib_demo3_state
    50 40 0 1 rfl rfl rfl (by decide)
  exact ⟨hruns 2 (by omega), hoff⟩

/-- Entries surviving `_cleanup_old_speeds` are all younger than `max_age`,
provided the deque is ordered by nondecreasing timestamps (which insertion at
the right end with a monotonic clock maintains). -/
theorem cleanup_old_speeds_fresh (max_age current_time : Int) :
    ∀ l : List Entry, l.Pairwise (fun a b => a.1 ≤ b.1) →
      ∀ e ∈ cleanup_old_speeds max_age current_time l,
        current_time - e.1 < max_age
  | [], _, e, he => by simp [cleanup_old_speeds] at he
  | x :: xs, hp, e, he => by
    simp only [cleanup_old_speeds] at he
    by_cases hx : max_age ≤ current_time - x.1
    · rw [if_pos hx] at he
      exact cleanup_old_speeds_fresh max_age current_time xs
        (List.Pairwise.of_cons hp) e he
    · rw [if_neg hx] at he
      push_neg at hx
      rcases List.mem_cons.mp he with rfl | he2
      · exact hx
      · have hle : x.1 ≤ e.1 := (List.pairwise_cons.mp hp).1 e he2
        omega

/-- C2 (amended): rank-1 is pruned of entries aged at least `max_age` before
every insertion, so immediately after an insertion at time `t` (timestamps
having been appended in nondecreasing order) every rank-1 entry is younger
than `max_age` relative to `t`.  The pruning happens only on the insertion
path, however, so this freshness is guaranteed only at insertion time, not at
an arbitrary later read. -/
theorem rank1_fresh_after_insert (max_age current_time speed : Int)
    (l : List Entry) (hpos : 0 < max_age)
    (hsorted : l.Pairwise (fun a b => a.1 ≤ b.1)) :
    add_speed_to_rank max_age speed l current_time =
      cleanup_old_speeds max_age current_time l ++ [(current_time, speed)] ∧
    ∀ e ∈ add_speed_to_rank max_age speed l current_time,
      current_time - e.1 < max_age := by
  refine ⟨rfl, ?_⟩
  intro e he
  rw [add_speed_to_rank] at he
  rcases List.mem_append.mp he with he1 | he2
  · exact cleanup_old_speeds_fresh max_age current_time l hsorted e he1
  · have : e = (current_time, speed) := by simpa using he2
    rw [this]
    simpa using hpos

/-- Witness for C2 (amended): inserting at time 6 with `max_age = 10` prunes
the entry of age 11 and leaves only entries younger than 10. -/
theorem rank1_fresh_after_insert_witness :
    (0 : Int) < 10 ∧
    add_speed_to_rank 10 70 [(-5, 40), (0, 50)] 6 = [(0, 50), (6, 70)] ∧
    ∀ e ∈ add_speed_to_rank 10 70 [(-5, 40), (0, 50)] 6,
      (6 : Int) - e.1 < 10 := by
  refine ⟨by norm_num, rfl, ?_⟩
  exact (rank1_fresh_after_insert 10 6 70 [(-5, 40), (0, 50)] (by norm_num)
    (by norm_num [List.pairwise_cons])).2

/-- C2 counterexample to the claim as stated: the entry `(0, 50)` was
inserted into rank-1 at time 0 with `max_age = 10`; nothing prunes the bucket
at read time, so a match issued when the clock reads 20 — an age of
`20 - 0 = 20 ≥ max_age` — still finds the entry and returns its speed. -/
theorem rank1_staleness_counterexample :
    stale_demo_state.rank1 = [(0, 50)] ∧
    (10 : Int) ≤ 20 - 0 ∧
    ∃ st', get_radar_data stale_demo_state 48 40 0 = Except.ok (some 50, st') :=
  ⟨rfl, by norm_num, _, rfl⟩

/-- C3 (documenting the code defect): both queue-process functions return
`True` on `queue.Empty`, so a pass over two empty queues counts as two
processed messages — the empty-cycle counter is reset and the loop sleeps
0.1 s.  The linear `min(2 * counter, 10)` backoff is reachable only when
both calls return `False` (i.e. on processing failures), contradicting the
specified empty-queue backoff of 2, 4, 6, 8, 10 seconds. -/
theorem empty_pass_resets_backoff :
    (∀ (env : BrokerEnv) (pipeline : Option String) (topic_is_none : Bool)
      (image_upload snap_upload : Option S3Ref) (send_ok : Nat → String → Bool),
      (process_events_queue env pipeline none topic_is_none image_upload
        snap_upload send_ok).success = true) ∧
    (∀ (env : BrokerEnv) (pipeline : Option String) (topic_is_none : Bool)
      (send_ok : Nat → String → Bool),
      (process_analytics_queue env pipeline none topic_is_none
        send_ok).success = true) ∧
    (∀ n : Nat, kafka_loop_pass true true n = (0, (1 : ℚ) / 10)) ∧
    (∀ n : Nat, kafka_loop_pass false false n =
      (n + 1, min (2 * ((n : ℚ) + 1)) 10)) :=
  ⟨fun _ _ _ _ _ _ => rfl, fun _ _ _ _ => rfl, fun _ => rfl, fun _ => rfl⟩

/-- C8 (documenting the code defect): the ingestion loop's bucket mutations
(rank-1 insert, rank-2 insert, rank-2→rank-3 promotion) are all performed
without holding `radar_lock`, while the matching side `get_radar_data` does
hold it — so the single mutex does not serialize ingestion against
matching. -/
theorem ingestion_mutates_buckets_without_lock :
    radar_read_iter_actions 0 50 none 15 =
      [⟨RadarAction.insert_rank1, false⟩] ∧
    (∀ (count_radar : Nat) (speed : Int) (previous_reading : Option Int)
      (max_diff_rais : Int),
      (radar_read_iter_actions count_radar speed previous_reading
        max_diff_rais).all (fun a => !a.holds_radar_lock) = true) ∧
    get_radar_data_actions.all (fun a => a.holds_radar_lock) = true := by
  refine ⟨rfl, ?_, rfl⟩
  intro count_radar speed previous_reading max_diff_rais
  unfold radar_read_iter_actions
  rcases previous_reading with _ | prev <;> dsimp only <;> split_ifs <;> rfl

/-- C4 counterexample to the claim as stated: with both publish attempts
failing, the message is dropped (`False` returned after exactly two send
attempts) but the rate-limited error logger is never invoked on this path —
zero error-log publishes, not one per `errorInterval` window. -/
theorem publish_drop_not_logged_counterexample :
    (process_analytics_queue demo_broker_env (some "brokerA") (some (some 1))
      false (fun _ _ => false)).success = false ∧
    (process_analytics_queue demo_broker_env (some "brokerA") (some (some 1))
      false (fun _ _ => false)).send_attempts = 2 ∧
    (process_analytics_queue demo_broker_env (some "brokerA") (some (some 1))
      false (fun _ _ => false)).error_log_sends = 0 :=
  ⟨rfl, rfl, rfl⟩

/-- C4 (amended): on a publish transport failure the current connection is
closed and discarded and a new one is created through
`create_kafka_producer` (hence through the next-healthy-broker rotation);
the publish is then retried exactly once — a second consecutive failure
returns the message as dropped, with no third attempt, no requeueing, and
no error-log publish on this path. -/
theorem publish_failure_retries_once (env : BrokerEnv) (conn : String)
    (msg : Nat) (send_ok : Nat → String → Bool) (r : PublishResult)
    (hfail : send_ok 0 conn = false)
    (hr : r = process_analytics_queue env (some conn) (some (some msg)) false
      send_ok) :
    r.closed = [conn] ∧
    r.pipeline = (create_kafka_producer env).1 ∧
    r.env = (create_kafka_producer env).2 ∧
    r.error_log_sends = 0 ∧
    (∀ conn2, (create_kafka_producer env).1 = some conn2 →
      r.send_attempts = 2 ∧ r.success = send_ok 1 conn2) ∧
    ((create_kafka_producer env).1 = none →
      r.success = false ∧ r.send_attempts = 1) ∧
    (∀ broker env', create_kafka_producer env = (some broker, env') →
      (get_next_healthy_broker env).1 = some broker ∧
        env.create_ok broker = true) := by
  subst hr
  have hhb : handle_broker_failure env (some conn) =
      ((create_kafka_producer env).1, (create_kafka_producer env).2, [conn]) := rfl
  have hrot : ∀ broker env', create_kafka_producer env = (some broker, env') →
      (get_next_healthy_broker env).1 = some broker ∧
        env.create_ok broker = true := by
    intro broker env' hce
    unfold create_kafka_producer at hce
    rcases hg : get_next_healthy_broker env with ⟨q, envq⟩
    rw [hg] at hce
    rcases q with _ | b
    · simp at hce
    · by_cases hco : env.create_ok b = true
      · simp only [hco, if_true] at hce
        obtain ⟨hb, -⟩ := Prod.mk.inj hce
        obtain hb2 := Option.some.inj hb
        subst hb2
        exact ⟨rfl, hco⟩
      · simp [hco] at hce
  rcases hcp : create_kafka_producer env with ⟨p, envp⟩
  rcases p with _ | conn2
  · have hstep : process_analytics_queue env (some conn) (some (some msg)) false
        send_ok = ⟨false, none, envp, [conn], 1, 0⟩ := by
      simp [process_analytics_queue, hfail, hhb, hcp]
    rw [hstep]
    exact ⟨rfl, rfl, rfl, rfl, fun c2 hc2 => Option.noConfusion hc2,
      fun _ => ⟨rfl, rfl⟩, fun broker envx hb => hrot broker envx (hcp.trans hb)⟩
  · by_cases hs2 : send_ok 1 conn2 = true
    · have hstep : process_analytics_queue env (some conn) (some (some msg))
          false send_ok = ⟨true, some conn2, envp, [conn], 2, 0⟩ := by
        simp [process_analytics_queue, hfail, hhb, hcp, hs2]
      rw [hstep]
      refine ⟨rfl, rfl, rfl, rfl, ?_, fun hnone => Option.noConfusion hnone,
        fun broker envx hb => hrot broker envx (hcp.trans hb)⟩
      intro c2 hc2
      obtain hc2' := Option.some.inj hc2
      subst hc2'
      exact ⟨rfl, hs2.symm⟩
    · have hs2' : send_ok 1 conn2 = false := by simpa using hs2
      have hstep : process_analytics_queue env (some conn) (some (some msg))
          false send_ok = ⟨false, some conn2, envp, [conn], 2, 0⟩ := by
        simp [process_analytics_queue, hfail, hhb, hcp, hs2']
      rw [hstep]
      refine ⟨rfl, rfl, rfl, rfl, ?_, fun hnone => Option.noConfusion hnone,
        fun broker envx hb => hrot broker envx (hcp.trans hb)⟩
      intro c2 hc2
      obtain hc2' := Option.some.inj hc2
      subst hc2'
      exact ⟨rfl, hs2'.symm⟩

/-- Witness for C4 (amended): concrete double failure against the two-broker
environment — the old connection is closed, the producer rotates to broker B,
the retry also fails, and no error log is published. -/
theorem publish_failure_retries_once_witness :
    ((fun _ _ => false : Nat → String → Bool) 0 "brokerA" = false) ∧
    (process_analytics_queue demo_broker_env (some "brokerA") (some (some 1))
      false (fun _ _ => false)).closed = ["brokerA"] ∧
    (process_analytics_queue demo_broker_env (some "brokerA") (some (some 1))
      false (fun _ _ => false)).error_log_sends = 0 := by
  obtain ⟨hclosed, -, -, herr, -⟩ :=
    publish_failure_retries_once demo_broker_env "brokerA" 1
      (fun _ _ => false)
      (process_analytics_queue demo_broker_env (some "brokerA")
        (some (some 1)) false (fun _ _ => false)) rfl rfl
  exact ⟨rfl, hclosed, herr⟩

/-- `find?` over a strictly increasing list of naturals returns the match
with the smallest value: everything smaller in the list fails the
predicate. -/
theorem find?_sorted_first (p : Nat → Bool) :
    ∀ (l : List Nat), l.Pairwise (· < ·) → ∀ k, l.find? p = some k →
      p k = true ∧ ∀ j ∈ l, j < k → p j = false
  | [], _, k, h => by simp at h
  | a :: l, hp, k, h => by
    by_cases ha : p a = true
    · rw [List.find?_cons_of_pos _ ha] at h
      obtain rfl := Option.some.inj h
      refine ⟨ha, ?_⟩
      intro j hj hjk
      rcases List.mem_cons.mp hj with rfl | hj2
      · omega
      · have := (List.pairwise_cons.mp hp).1 j hj2
        omega
    · rw [List.find?_cons_of_neg _ ha] at h
      obtain ⟨h1, h2⟩ := find?_sorted_first p l (List.Pairwise.of_cons hp) k h
      refine ⟨h1, ?_⟩
      intro j hj hjk
      rcases List.mem_cons.mp hj with rfl | hj2
      · simpa using ha
      · exact h2 j hj2 hjk

/-- The inner attempt loop finds the first successful attempt within the
retry budget: the returned index is below `retries`, succeeds, and every
earlier attempt failed. -/
theorem first_successful_attempt_spec (ok : Nat → Bool) (retries k : Nat)
    (h : first_successful_attempt ok retries = some k) :
    k < retries ∧ ok k = true ∧ ∀ j, j < k → ok j = false := by
  have hmem := List.mem_of_find?_eq_some h
  have hk : k < retries := List.mem_range.mp hmem
  obtain ⟨h1, h2⟩ :=
    find?_sorted_first ok (List.range retries) (List.pairwise_lt_range retries) k h
  exact ⟨hk, h1, fun j hj => h2 j (List.mem_range.mpr (by omega)) hj⟩

/-- Marking one name unhealthy folds into the membership form of the health
dict. -/
theorem ite_mem_update (A : List String) (name m : String)
    (health : String → Bool) :
    (if m ∈ A then false else (if m = name then false else health m)) =
    (if m = name ∨ m ∈ A then false else health m) := by
  by_cases h1 : m = name <;> by_cases h2 : m ∈ A <;> simp [h1, h2]

/-- Full characterization of the backend loop of `upload_to_s3` over any
suffix of the configuration list (backend names assumed distinct, as dict
keys are): the first healthy backend (with a client) that has a successful
attempt determines the returned reference; every healthy backend tried
before it is marked unhealthy with the failure time recorded; if no tried
backend succeeds, all of them are marked unhealthy and `none` is returned. -/
theorem upload_loop_spec (env : S3Env) (file_type filename : String) :
    ∀ (cfgs : List (String × S3Config)) (health : String → Bool)
      (last_failure : Int), (cfgs.map Prod.fst).Nodup →
      ((∀ name cfg,
        (healthy_with_client env health cfgs).find? (backend_wins env) =
          some (name, cfg) →
        (upload_loop env file_type filename cfgs health last_failure).1 =
          some (s3_reference file_type cfg filename) ∧
        (∀ m, (upload_loop env file_type filename cfgs health last_failure).2.1 m =
          if m ∈ ((healthy_with_client env health cfgs).takeWhile
              (fun p => !backend_wins env p)).map Prod.fst then false
          else health m) ∧
        (upload_loop env file_type filename cfgs health last_failure).2.2 =
          (if ((healthy_with_client env health cfgs).takeWhile
              (fun p => !backend_wins env p)) = [] then last_failure
           else env.now)) ∧
      ((healthy_with_client env health cfgs).find? (backend_wins env) = none →
        (upload_loop env file_type filename cfgs health last_failure).1 = none ∧
        (∀ m, (upload_loop env file_type filename cfgs health last_failure).2.1 m =
          if m ∈ (healthy_with_client env health cfgs).map Prod.fst then false
          else health m) ∧
        (upload_loop env file_type filename cfgs health last_failure).2.2 =
          (if healthy_with_client env health cfgs = [] then last_failure
           else env.now)))
  | [], health, last_failure, _ => by
    constructor
    · intro name cfg hfind
      simp [healthy_with_client] at hfind
    · intro _
      refine ⟨rfl, fun m => ?_, ?_⟩
      · simp [upload_loop, healthy_with_client]
      · simp [upload_loop, healthy_with_client]
  | (name, cfg) :: rest, health, last_failure, hnd => by
    rw [List.map_cons, List.nodup_cons] at hnd
    obtain ⟨hname, hrest⟩ := hnd
    by_cases hH : health name = true
    · by_cases hC : env.has_client name = true
      · have hwc : healthy_with_client env health ((name, cfg) :: rest) =
            (name, cfg) :: healthy_with_client env health rest := by
          simp [healthy_with_client, List.filter_cons, hH, hC]
        by_cases hw : backend_wins env (name, cfg) = true
        · obtain ⟨k, hk⟩ : ∃ k, first_successful_attempt (env.attempt_ok name)
              env.upload_retries = some k := by
            rcases hfa : first_successful_attempt (env.attempt_ok name)
              env.upload_retries with _ | k
            · rw [backend_wins, hfa] at hw
              simp at hw
            · exact ⟨k, rfl⟩
          have hloop : upload_loop env file_type filename ((name, cfg) :: rest)
              health last_failure =
              (some (s3_reference file_type cfg filename), health,
                last_failure) := by
            simp [upload_loop, hH, hC, hk]
          constructor
          · intro name' cfg' hfind
            rw [hwc, List.find?_cons_of_pos _ hw] at hfind
            obtain ⟨rfl, rfl⟩ := Prod.mk.inj (Option.some.inj hfind)
            rw [hloop, hwc, List.takeWhile_cons_of_neg (by simp [hw])]
            exact ⟨rfl, fun m => by simp, by simp⟩
          · intro hfind
            rw [hwc, List.find?_cons_of_pos _ hw] at hfind
            exact Option.noConfusion hfind
        · have hwn : first_successful_attempt (env.attempt_ok name)
              env.upload_retries = none := by
            rcases hfa : first_successful_attempt (env.attempt_ok name)
              env.upload_retries with _ | k
            · rfl
            · rw [backend_wins, hfa] at hw
              simp at hw
          have hloop : upload_loop env file_type filename ((name, cfg) :: rest)
              health last_failure =
              upload_loop env file_type filename rest
                (fun m => if m = name then false else health m) env.now := by
            simp [upload_loop, hH, hC, hwn]
          have hagree : healthy_with_client env
              (fun m => if m = name then false else health m) rest =
              healthy_with_client env health rest := by
            apply List.filter_congr
            intro p hp
            have hne : p.1 ≠ name := by
              intro he
              exact hname (he ▸ List.mem_map.mpr ⟨p, hp, rfl⟩)
            simp [hne]
          obtain ⟨IH1, IH2⟩ := upload_loop_spec env file_type filename rest
            (fun m => if m = name then false else health m) env.now hrest
          have htwc : List.takeWhile (fun p => !backend_wins env p)
              ((name, cfg) :: healthy_with_client env health rest) =
              (name, cfg) :: List.takeWhile (fun p => !backend_wins env p)
                (healthy_with_client env health rest) :=
            List.takeWhile_cons_of_pos (by simp [hw])
          rw [hwc, hloop]
          constructor
          · intro name' cfg' hfind
            rw [List.find?_cons_of_neg _ hw] at hfind
            have hfind' : (healthy_with_client env
                (fun m => if m = name then false else health m) rest).find?
                  (backend_wins env) = some (name', cfg') := by
              rw [hagree]
              exact hfind
            obtain ⟨g1, g2, g3⟩ := IH1 name' cfg' hfind'
            simp only [hagree] at g2 g3
            refine ⟨g1, fun m => ?_, ?_⟩
            · rw [g2 m]
              simp only [htwc, List.map_cons, List.mem_cons]
              exact ite_mem_update _ name m health
            · rw [g3]
              simp only [htwc]
              simp [ite_self]
          · intro hfind
            rw [List.find?_cons_of_neg _ hw] at hfind
            have hfind' : (healthy_with_client env
                (fun m => if m = name then false else health m) rest).find?
                  (backend_wins env) = none := by
              rw [hagree]
              exact hfind
            obtain ⟨g1, g2, g3⟩ := IH2 hfind'
            simp only [hagree] at g2 g3
            refine ⟨g1, fun m => ?_, ?_⟩
            · rw [g2 m]
              simp only [List.map_cons, List.mem_cons]
              exact ite_mem_update _ name m health
            · rw [g3]
              simp [ite_self]
      · have hCf : env.has_client name = false := by simpa using hC
        have hwc : healthy_with_client env health ((name, cfg) :: rest) =
            healthy_with_client env health rest := by
          simp [healthy_with_client, List.filter_cons, hCf]
        have hloop : upload_loop env file_type filename ((name, cfg) :: rest)
            health last_failure =
            upload_loop env file_type filename rest health last_failure := by
          simp [upload_loop, hH, hCf]
        rw [hwc, hloop]
        exact upload_loop_spec env file_type filename rest health last_failure hrest
    · have hHf : health name = false := by simpa using hH
      have hwc : healthy_with_client env health ((name, cfg) :: rest) =
          healthy_with_client env health rest := by
        simp [healthy_with_client, List.filter_cons, hHf]
      have hloop : upload_loop env file_type filename ((name, cfg) :: rest)
          health last_failure =
          upload_loop env file_type filename rest health last_failure := by
        simp [upload_loop, hHf]
      rw [hwc, hloop]
      exact upload_loop_spec env file_type filename rest health last_failure hrest

/-- C7: `upload_to_s3` iterates the configured backends in configured order,
skipping any backend currently marked unhealthy (or lacking a client);
against each tried backend it attempts up to `upload_retries` times and
returns immediately on the first success — a bare object key for images, a
fully-qualified bucket/region URL for videos; a backend whose attempts are
all exhausted is marked unhealthy with the failure time recorded before the
next backend is tried; when every backend is exhausted it returns `none`.
(The fixed inter-attempt `time.sleep(delay)` has no observable effect in
this embedding.) -/
theorem upload_failover_characterization (env : S3Env) (file_type uuid : String)
    (hnd : (env.s3_configs.map Prod.fst).Nodup) :
    (∀ name cfg,
      (healthy_with_client env env.s3_health env.s3_configs).find?
          (backend_wins env) = some (name, cfg) →
      (upload_to_s3 env file_type uuid).1 =
        some (s3_reference file_type cfg (s3_filename file_type uuid)) ∧
      (∀ m, (upload_to_s3 env file_type uuid).2.1 m =
        if m ∈ ((healthy_with_client env env.s3_health env.s3_configs).takeWhile
            (fun p => !backend_wins env p)).map Prod.fst then false
        else env.s3_health m) ∧
      (upload_to_s3 env file_type uuid).2.2 =
        (if ((healthy_with_client env env.s3_health env.s3_configs).takeWhile
            (fun p => !backend_wins env p)) = [] then env.last_s3_failure
         else env.now)) ∧
    ((healthy_with_client env env.s3_health env.s3_configs).find?
        (backend_wins env) = none →
      (upload_to_s3 env file_type uuid).1 = none ∧
      (∀ m, (upload_to_s3 env file_type uuid).2.1 m =
        if m ∈ (healthy_with_client env env.s3_health env.s3_configs).map
            Prod.fst then false
        else env.s3_health m) ∧
      (upload_to_s3 env file_type uuid).2.2 =
        (if healthy_with_client env env.s3_health env.s3_configs = []
         then env.last_s3_failure else env.now)) ∧
    (∀ name k, first_successful_attempt (env.attempt_ok name)
        env.upload_retries = some k →
      k < env.upload_retries ∧ env.attempt_ok name k = true ∧
        ∀ j, j < k → env.attempt_ok name j = false) ∧
    (∀ cfg fn, s3_reference "video" cfg fn =
      S3Ref.fullUrl ("https://" ++ cfg.bucket_name ++ ".s3." ++
        cfg.region_name ++ ".amazonaws.com/" ++ fn)) ∧
    (file_type ≠ "video" →
      ∀ cfg fn, s3_reference file_type cfg fn = S3Ref.objKey fn) := by
  obtain ⟨h1, h2⟩ := upload_loop_spec env file_type (s3_filename file_type uuid)
    env.s3_configs env.s3_health env.last_s3_failure hnd
  refine ⟨?_, ?_, fun name k hk => first_successful_attempt_spec _ _ _ hk,
    fun cfg fn => rfl, fun hft cfg fn => ?_⟩
  · simpa only [upload_to_s3] using h1
  · simpa only [upload_to_s3] using h2
  · simp [s3_reference, hft]

/-- Witness for C7: against the concrete two-backend environment a video
upload fails over from `primary` (which gets marked unhealthy) to
`secondary` and returns `secondary`'s fully-qualified URL. -/
theorem upload_failover_characterization_witness :
    (demo_s3_env.s3_configs.map Prod.fst).Nodup ∧
    (upload_to_s3 demo_s3_env "video" "u1").1 =
      some (S3Ref.fullUrl "https://bucketB.s3.regionB.amazonaws.com/clipsu1.mp4") ∧
    (upload_to_s3 demo_s3_env "video" "u1").2.1 "primary" = false := by
  refine ⟨by decide, ?_, ?_⟩
  all_goals
    obtain ⟨h1, -, -, -, -⟩ :=
      upload_failover_characterization demo_s3_env "video" "u1" (by decide)
    obtain ⟨g1, g2, -⟩ := h1 "secondary" ⟨"bucketB", "regionB"⟩ (by decide)
  · rw [g1]
    rfl
  · rw [g2 "primary"]
    decide

end SVDS
